import Mathlib

/-!
Verification of the fetch pipeline in `scripts/fetch_awesome_llm_apps.py`.

The Python source is shallowly embedded: each I/O interaction (a GitHub API
call, an HTTP download, a file read) is represented by an oracle argument
describing its outcome, and the control flow of every modelled function is
transcribed directly from the source.
-/

namespace FetchApps

/-- Outcome of one invocation of the operation wrapped by `fetch_with_retry`:
either a value is returned, a `RateLimitExceededException` is raised, or some
other exception is raised. -/
inductive FetchOutcome (α : Type) where
  | ok (v : α)
  | rateLimited
  | failure
deriving DecidableEq, Repr

/-- Observable trace of one call to `fetch_with_retry`: the returned value
(`none` is Python's `None`), the sequence of `time.sleep` durations in seconds,
and how many times the wrapped operation was invoked. -/
structure RetryTrace (α : Type) where
  result : Option α
  sleeps : List ℚ
  calls : Nat
deriving DecidableEq, Repr

/-- The `for attempt in range(max_retries)` loop of `fetch_with_retry`
(lines 230-256).  `attempt` is the current loop index, the fuel is the number
of remaining iterations.  On success the result is returned; on a rate-limit
exception the loop sleeps `initial_wait * 2 ** attempt` and continues unless
this was the last attempt; any other exception returns `None` at once. -/
def retryLoop {α : Type} (op : Nat → FetchOutcome α) (max_retries : Nat)
    (initial_wait : ℚ) : Nat → Nat → RetryTrace α
  | _, 0 => ⟨none, [], 0⟩
  | attempt, fuel + 1 =>
    match op attempt with
    | .ok v => ⟨some v, [], 1⟩
    | .failure => ⟨none, [], 1⟩
    | .rateLimited =>
      if attempt < max_retries - 1 then
        let t := retryLoop op max_retries initial_wait (attempt + 1) fuel
        ⟨t.result, initial_wait * 2 ^ attempt :: t.sleeps, t.calls + 1⟩
      else ⟨none, [], 1⟩

/-- Model of `fetch_with_retry` (lines 196-258) with its Python defaults
`max_retries=3`, `initial_wait=1.0`.  The wrapped operation is modelled as a
function from the invocation index to that invocation's outcome. -/
def fetch_with_retry {α : Type} (op : Nat → FetchOutcome α)
    (max_retries : Nat := 3) (initial_wait : ℚ := 1) : RetryTrace α :=
  retryLoop op max_retries initial_wait 0 max_retries

/-- Outcome of one `urllib.request.urlopen` call in `fetch_raw_readme`:
a successful download, an `HTTPError` with code 404, any other `HTTPError`,
a `URLError`, or any other exception.  Every non-`ok` arm of the source's
`try` block executes `continue`. -/
inductive HttpOutcome where
  | ok (content : String)
  | notFound
  | httpError (code : Nat)
  | urlError
  | exc
deriving DecidableEq, Repr

/-- Whether the HTTP outcome is a successful download. -/
def HttpOutcome.isOk : HttpOutcome → Bool
  | .ok _ => true
  | _ => false

/-- True on the characters Python's `str.strip()` and `\s` treat as
whitespace (ASCII range). -/
def isPySpace (c : Char) : Bool :=
  c = ' ' || c = '\t' || c = '\n' || c = '\r' || c = '\x0b' || c = '\x0c'

/-- Whether `a` begins with the character sequence `p`. -/
def startsWithChars : List Char → List Char → Bool
  | [], _ => true
  | _ :: _, [] => false
  | p :: ps, c :: cs => p = c && startsWithChars ps cs

/-- Whether `s` ends with the character sequence `suf`. -/
def endsWithChars (s suf : List Char) : Bool :=
  startsWithChars suf.reverse s.reverse

/-- The tail of the URL regex after the owner's separating slash:
`([^/]+?)(?:\.git)?/?$`.  A lazy nonempty slash-free repo name, optionally
followed by `.git`, optionally followed by `/`, then the end of the string.
Backtracking makes the trailing `/` and a trailing `.git` get stripped when
(and only when) what remains is a nonempty slash-free name. -/
def matchRepoPart (cs : List Char) : Option (List Char) :=
  let t := if endsWithChars cs ['/'] then cs.dropLast else cs
  if t.contains '/' then none
  else
    let t2 := if endsWithChars t ['.', 'g', 'i', 't'] && 4 < t.length
              then t.dropLast.dropLast.dropLast.dropLast else t
    if t2 = [] then none else some t2

/-- The part of the URL regex after the optional `[/:]` separator:
`([^/]+)/` followed by `matchRepoPart`.  The owner is a nonempty maximal
slash-free run followed by a literal `/`. -/
def matchOwnerRepo (cs : List Char) : Option (String × String) :=
  let owner := cs.takeWhile (fun c => c ≠ '/')
  if owner = [] then none
  else
    match cs.dropWhile (fun c => c ≠ '/') with
    | '/' :: tail => (matchRepoPart tail).map (fun r => (String.mk owner, String.mk r))
    | _ => none

/-- The part of the URL regex after the literal `github.com`: `[/:]?` then
`matchOwnerRepo`.  The greedy optional separator is tried first; on failure
the regex backtracks and retries without consuming it. -/
def matchAfterGithub (cs : List Char) : Option (String × String) :=
  match cs with
  | [] => none
  | c :: rest =>
    if c = '/' || c = ':' then
      match matchOwnerRepo rest with
      | some p => some p
      | none => matchOwnerRepo cs
    else matchOwnerRepo cs

/-- Model of `re.search` of the pattern `github\.com[/:]?([^/]+)/([^/]+?)(?:\.git)?/?$`
over the character list: the match is attempted at each position from the
left, succeeding at the first position where the literal `github.com` occurs
and the rest of the pattern matches through to the end of the string. -/
def searchGithub : List Char → Option (String × String)
  | [] => none
  | c :: rest =>
    if startsWithChars ['g', 'i', 't', 'h', 'u', 'b', '.', 'c', 'o', 'm'] (c :: rest) then
      match matchAfterGithub ((c :: rest).drop 10) with
      | some p => some p
      | none => searchGithub rest
    else searchGithub rest

/-- The owner/repo extraction of `fetch_raw_readme` (lines 286-293):
`url_pattern.search(repo_url)` returning the two captured groups. -/
def matchRepoUrl (repo_url : String) : Option (String × String) :=
  searchGithub repo_url.toList

/-- The candidate README filenames tried by `fetch_raw_readme` (line 298). -/
def readme_filenames : List String :=
  ["README.md", "README.markdown", "README.rst", "README"]

/-- The raw-content URL constructed at line 301. -/
def rawUrl (owner repo branch readme_name : String) : String :=
  "https://raw.githubusercontent.com/" ++ owner ++ "/" ++ repo ++ "/" ++
    branch ++ "/" ++ readme_name

/-- The `for readme_name in readme_filenames` loop of `fetch_raw_readme`
(lines 300-329): each candidate URL is fetched in order; a successful download
returns its content, and a 404, any other `HTTPError`, a `URLError` or any
other exception all `continue` to the next filename.  Also returns the number
of HTTP attempts performed. -/
def tryFilenames (http : String → HttpOutcome) (owner repo branch : String) :
    List String → Option String × Nat
  | [] => (none, 0)
  | readme_name :: rest =>
    match http (rawUrl owner repo branch readme_name) with
    | .ok content => (some content, 1)
    | .notFound =>
      let r := tryFilenames http owner repo branch rest
      (r.1, r.2 + 1)
    | .httpError _ =>
      let r := tryFilenames http owner repo branch rest
      (r.1, r.2 + 1)
    | .urlError =>
      let r := tryFilenames http owner repo branch rest
      (r.1, r.2 + 1)
    | .exc =>
      let r := tryFilenames http owner repo branch rest
      (r.1, r.2 + 1)

/-- Model of `fetch_raw_readme` (lines 261-337).  The HTTP layer is an oracle from the
request URL to its outcome.  If the URL regex fails the function returns
`None` with no HTTP attempt; otherwise the filename loop runs on the given
branch, and if it exhausts all filenames while the branch is `main`, the
function re-invokes itself once with branch `master` (the recursive call
re-parses the same URL, yielding the same owner/repo, so it is unrolled
here).  Returns the content (or `none`) and the total number of HTTP
attempts. -/
def fetch_raw_readme (http : String → HttpOutcome) (repo_url : String)
    (branch : String := "main") : Option String × Nat :=
  match matchRepoUrl repo_url with
  | none => (none, 0)
  | some (owner, repo) =>
    let r1 := tryFilenames http owner repo branch readme_filenames
    match r1.1 with
    | some content => (some content, r1.2)
    | none =>
      if branch = "main" then
        let r2 := tryFilenames http owner repo "master" readme_filenames
        (r2.1, r1.2 + r2.2)
      else (none, r1.2)

/-- Python's `str.strip()` on a character list: leading and trailing
whitespace removed. -/
def pyStripChars (cs : List Char) : List Char :=
  ((cs.dropWhile isPySpace).reverse.dropWhile isPySpace).reverse

/-- Python's `str.strip()` on a string. -/
def pyStrip (s : String) : String :=
  String.mk (pyStripChars s.toList)

/-- The `Project` dataclass (lines 33-47). -/
structure Project where
  title : String
  url : String
  description : Option String := none
  category : String := ""
deriving DecidableEq, Repr

/-- Model of `category_pattern.match(line.strip())` for the pattern `^##\s+(.+)$`
(line 378), returning the raw captured group: two `#` characters, at least
one whitespace character, then a nonempty remainder (the greedy `\s+` yields
to `.+` for its last character when nothing else is left). -/
def matchCategory (cs : List Char) : Option (List Char) :=
  match cs with
  | '#' :: '#' :: rest =>
    let ws := rest.takeWhile isPySpace
    let content := rest.dropWhile isPySpace
    if ws = [] then none
    else if content ≠ [] then some content
    else if 2 ≤ ws.length then some (ws.drop (ws.length - 1))
    else none
  | _ => none

/-- Model of `project_pattern.match(line.strip())` for the pattern
`-\s+\[([^\]]+)\]\(([^)]+)\)\s*(?:-\s*(.+))?$` (lines 379-382), returning the
three raw captured groups (title, url, optional description).  The optional
description part must, when attempted, contribute at least one character
after its `-\s*`; otherwise the whole line fails to match. -/
def matchProject (cs : List Char) : Option (List Char × List Char × Option (List Char)) :=
  match cs with
  | '-' :: rest =>
    if rest.takeWhile isPySpace = [] then none
    else
      match rest.dropWhile isPySpace with
      | '[' :: r1 =>
        let title := r1.takeWhile (fun c => c ≠ ']')
        if title = [] then none
        else
          match r1.dropWhile (fun c => c ≠ ']') with
          | ']' :: '(' :: r2 =>
            let url := r2.takeWhile (fun c => c ≠ ')')
            if url = [] then none
            else
              match r2.dropWhile (fun c => c ≠ ')') with
              | ')' :: r3 =>
                match r3.dropWhile isPySpace with
                | [] => some (title, url, none)
                | '-' :: r5 =>
                  let d := r5.dropWhile isPySpace
                  if d = [] then none else some (title, url, some d)
                | _ => none
              | _ => none
          | _ => none
      | _ => none
  | _ => none

/-- How one line of the README is treated by the loop body of
`parse_main_readme` (lines 387-412): the stripped line is first tested
against the category pattern, then against the project pattern. -/
inductive LineClass where
  | header (raw : List Char)
  | bullet (title url : List Char) (description : Option (List Char))
  | plain
deriving DecidableEq, Repr

/-- Whether the line classification is a project entry. -/
def LineClass.isBullet : LineClass → Bool
  | .bullet _ _ _ => true
  | _ => false

/-- Classify one source line the way the loop body does. -/
def classifyLine (line : String) : LineClass :=
  let cs := pyStripChars line.toList
  match matchCategory cs with
  | some g => .header g
  | none =>
    match matchProject cs with
    | some (t, u, d) => .bullet t u d
    | none => .plain

/-- The character sequence of a catalog bullet line `- [Title](URL)` with no
trailing description part. -/
def bulletChars (t u : List Char) : List Char :=
  '-' :: ' ' :: '[' :: (t ++ ']' :: '(' :: (u ++ [')']))

/-- Model of `if current_category not in categories: categories[current_category] = []`
(lines 393-394) on an insertion-ordered dictionary. -/
def dictEnsure (d : List (String × List Project)) (k : String) :
    List (String × List Project) :=
  if d.any (fun kv => kv.1 = k) then d else d ++ [(k, [])]

/-- Model of `categories.setdefault(current_category, []).append(project)` (line 411)
on an insertion-ordered dictionary. -/
def dictAppend (d : List (String × List Project)) (k : String) (v : Project) :
    List (String × List Project) :=
  if d.any (fun kv => kv.1 = k) then
    d.map (fun kv => if kv.1 = k then (kv.1, kv.2 ++ [v]) else kv)
  else d ++ [(k, [v])]

/-- One iteration of the `for line in lines` loop (lines 387-412).  The state
is the categories dictionary together with `current_category`. -/
def stepLine (st : List (String × List Project) × String) (line : String) :
    List (String × List Project) × String :=
  match classifyLine line with
  | .header g =>
    let c := String.mk (pyStripChars g)
    (dictEnsure st.1 c, c)
  | .bullet t u d =>
    let p : Project :=
      { title := String.mk (pyStripChars t)
        url := String.mk (pyStripChars u)
        description := d.map (fun x => String.mk (pyStripChars x))
        category := st.2 }
    (dictAppend st.1 st.2 p, st.2)
  | .plain => st

/-- Model of `parse_main_readme` (lines 340-422) applied to the already-read file
content split on newlines.  `current_category` starts as `"Uncategorized"`;
after the loop, a total project count of zero raises `ValueError`. -/
def parse_main_readme (lines : List String) :
    Except String (List (String × List Project)) :=
  let categories := (lines.foldl stepLine ([], "Uncategorized")).1
  if (categories.map (fun kv => kv.2.length)).sum = 0 then
    .error "No valid project entries found in README"
  else .ok categories

/-- A statement of a parsed Python module body as far as
`extract_python_metadata` inspects it: `ast.FunctionDef` nodes (name, line
number, positional argument names, `ast.get_docstring` result),
`ast.ClassDef` nodes (name, line number, docstring, body), and every other
statement kind. -/
inductive PyStmt where
  | funcDef (name : String) (lineno : Nat) (args : List String)
      (docstring : Option String)
  | classDef (name : String) (lineno : Nat) (docstring : Option String)
      (body : List PyStmt)
  | other

/-- A parsed Python module: its `ast.get_docstring` result and its body. -/
structure PyModule where
  docstring : Option String
  body : List PyStmt

/-- Function metadata collected by `extract_python_metadata`
(lines 556-561 and 581-586). -/
structure FuncInfo where
  name : String
  lineno : Nat
  args : List String
  docstring : Option String
deriving DecidableEq, Repr

/-- Class metadata collected by `extract_python_metadata` (lines 545-550). -/
structure ClassInfo where
  name : String
  lineno : Nat
  docstring : Option String
  methods : List FuncInfo
deriving DecidableEq, Repr

/-- The dictionary returned by `extract_python_metadata` (lines 509-515). -/
structure PyMetadata where
  name : String
  description : Option String
  functions : List FuncInfo
  classes : List ClassInfo
  file_path : String
deriving DecidableEq, Repr

/-- Model of `line[:200] + '...' if len(line) > 200 else line` (lines 535, 575, 597). -/
def truncDesc (line : String) : String :=
  if 200 < line.length then line.take 200 ++ "..." else line

/-- Python's `str.split('\n')`: split the character list at every newline
character (the result always has one more part than there are newlines). -/
def splitLinesChars : List Char → List (List Char)
  | [] => [[]]
  | c :: rest =>
    if c = '\n' then [] :: splitLinesChars rest
    else
      match splitLinesChars rest with
      | l :: ls => (c :: l) :: ls
      | [] => [[c]]

/-- Python's `str.split('\n')` on a string. -/
def pySplitLines (s : String) : List String :=
  (splitLinesChars s.toList).map String.mk

/-- The description derived from a docstring by the repeated pattern at
lines 528-536: strip the docstring, split it on newlines, strip each line,
and truncate the first non-blank one. -/
def descFromDoc (doc : String) : Option String :=
  (((pySplitLines (pyStrip doc)).map pyStrip).find? (fun l => l ≠ "")).map truncDesc

/-- The guarded description attempt `if <docstring truthy>: <first non-blank
line>`: Python's truthiness makes `None` and `""` both skip the block. -/
def descTry (doc : Option String) : Option String :=
  match doc with
  | some s => if s = "" then none else descFromDoc s
  | none => none

/-- A `PyStmt` viewed as a `FunctionDef`, as `isinstance(node,
ast.FunctionDef)` does. -/
def toFuncInfo : PyStmt → Option FuncInfo
  | .funcDef n ln args d => some ⟨n, ln, args, d⟩
  | _ => none

/-- The `method_names` set (lines 540-555): the names of every `FunctionDef`
directly inside any `ClassDef` of the module body. -/
def methodNamesOf (body : List PyStmt) : List String :=
  body.flatMap (fun s =>
    match s with
    | .classDef _ _ _ cbody => (cbody.filterMap toFuncInfo).map (fun f => f.name)
    | _ => [])

/-- The `classes` list (lines 543-566): every top-level `ClassDef` with its
`FunctionDef` items as methods, in source order. -/
def classInfosOf (body : List PyStmt) : List ClassInfo :=
  body.filterMap (fun s =>
    match s with
    | .classDef n ln d cbody => some ⟨n, ln, d, cbody.filterMap toFuncInfo⟩
    | _ => none)

/-- Every top-level `FunctionDef` of the module body, in source order. -/
def topLevelFuncDefs (body : List PyStmt) : List FuncInfo :=
  body.filterMap toFuncInfo

/-- The `functions` list (lines 579-587): the loop over `tree.body` keeps
each `FunctionDef` whose name is not in `method_names`. -/
def functionsOf (body : List PyStmt) : List FuncInfo :=
  let method_names := methodNamesOf body
  body.filterMap (fun s =>
    match s with
    | .funcDef n ln args d =>
      if n ∈ method_names then none else some ⟨n, ln, args, d⟩
    | _ => none)

/-- The description updates interleaved with the classes pass
(lines 568-576): each class in order may set a still-unset description from
its docstring. -/
def descAfterClasses (initial : Option String) (classes : List ClassInfo) :
    Option String :=
  classes.foldl
    (fun acc c =>
      match acc with
      | some d => some d
      | none => descTry c.docstring)
    initial

/-- The description updates interleaved with the functions pass
(lines 590-598): each retained top-level function named `main`, in order, may
set a still-unset description from its docstring. -/
def descAfterFuncs (initial : Option String) (funcs : List FuncInfo) :
    Option String :=
  funcs.foldl
    (fun acc f =>
      match acc with
      | some d => some d
      | none => if f.name = "main" then descTry f.docstring else none)
    initial

/-- The successful branch of `extract_python_metadata` (lines 509-606)
applied to a parsed module. -/
def extractFromModule (name file_path : String) (m : PyModule) : PyMetadata :=
  let d0 := descTry m.docstring
  let classes := classInfosOf m.body
  let d1 := descAfterClasses d0 classes
  let functions := functionsOf m.body
  let d2 := descAfterFuncs d1 functions
  ⟨name, d2, functions, classes, file_path⟩

/-- The possible fates of the input file of `extract_python_metadata`: the
path does not exist (line 504), reading raises `IOError` (line 611), parsing
raises `SyntaxError` (line 608), some other exception is raised (line 614),
or the file parses into a module. -/
inductive PyFileState where
  | missing
  | readError
  | syntaxError
  | otherError
  | parsed (m : PyModule)

/-- Model of `extract_python_metadata` (lines 464-616): every failure arm returns
`None`; a file that parses returns the extracted metadata. -/
def extract_python_metadata (name file_path : String) (st : PyFileState) :
    Option PyMetadata :=
  match st with
  | .missing => none
  | .readError => none
  | .syntaxError => none
  | .otherError => none
  | .parsed m => some (extractFromModule name file_path m)

/-- Modelled from the spec (claim C5's reading of §4.4): the derived
description is the first non-blank truncated line of the module docstring;
with no module docstring, of the first class's docstring; when no module or
class docstring is present at all, of the docstring of a top-level function
literally named `main`; otherwise `None`. -/
def claimDescriptionC5 (m : PyModule) : Option String :=
  match m.docstring with
  | some s => descFromDoc s
  | none =>
    match (classInfosOf m.body).findSome? (fun c => c.docstring) with
    | some s => descFromDoc s
    | none =>
      match (topLevelFuncDefs m.body).findSome?
          (fun f => if f.name = "main" then f.docstring else none) with
      | some s => descFromDoc s
      | none => none

/-- The externally-determined events of one `process_project` call
(lines 878-1053): the cache lookup result, the outcome of
`fetch_project_readme`, the description produced by the tier-3 Python-AST
loop when it succeeds, and whether generating the output file raises an
exception. -/
structure ProcEnv where
  cached : Option String
  fetched : Option String
  tier3desc : Option String
  writeRaises : Bool

/-- Which tier's content ends up in the generated page. -/
inductive ContentSource where
  | readme
  | tier3
  | catalogOnly
deriving DecidableEq, Repr

/-- The content-selection cascade of `process_project` (lines 906-1039): a
cached README, else a freshly fetched one, else a tier-3 synthesized summary,
else the catalog-only placeholder. -/
def contentSource (env : ProcEnv) : ContentSource :=
  match (match env.cached with | some c => some c | none => env.fetched) with
  | some _ => .readme
  | none =>
    match env.tier3desc with
    | some _ => .tier3
    | none => .catalogOnly

/-- Model of `process_project` (lines 878-1053).  Every fetch-tier failure is absorbed
by a fallback; the function returns `False` only when an exception escapes
the content-generation step and is caught by the outer handler
(lines 1050-1053). -/
def process_project (env : ProcEnv) : Bool × ContentSource :=
  (if env.writeRaises then false else true, contentSource env)

/-- The exit code computed by `main` (lines 1056-1166) on runs whose only
exception sources are the modelled ones: the required input document may be
missing (line 1091), `parse_main_readme` may raise `ValueError` on zero
entries (caught at line 1161), and each project's `process_project` call
either succeeds or fails.  The final exit code is
`0 if failed_count == 0 else 1` (line 1156). -/
def mainExit (readmeExists : Bool) (doc : List String)
    (env : Project → ProcEnv) : Nat :=
  if readmeExists = false then 1
  else
    match parse_main_readme doc with
    | .error _ => 1
    | .ok categories =>
      let projects := categories.flatMap (fun kv => kv.2)
      let failed_count :=
        (projects.filter (fun p => ¬ (process_project (env p)).1)).length
      if failed_count = 0 then 0 else 1

/-- Modelled from the spec (claim C6's reading of §6): exit code 1 exactly on
missing required input or zero parsed catalog entries (unhandled exceptions
are outside the modelled runs), 0 in every other run. -/
def claimExitC6 (readmeExists : Bool) (doc : List String) : Nat :=
  if readmeExists = false then 1
  else
    match parse_main_readme doc with
    | .error _ => 1
    | .ok _ => 0

/-! ## Helper lemmas -/

theorem retryLoop_ok {α : Type} (op : Nat → FetchOutcome α) (mr : Nat) (w : ℚ)
    (a fuel : Nat) (v : α) (h : op a = .ok v) :
    retryLoop op mr w a (fuel + 1) = ⟨some v, [], 1⟩ := by
  simp [retryLoop, h]

theorem retryLoop_failure {α : Type} (op : Nat → FetchOutcome α) (mr : Nat)
    (w : ℚ) (a fuel : Nat) (h : op a = .failure) :
    retryLoop op mr w a (fuel + 1) = ⟨none, [], 1⟩ := by
  simp [retryLoop, h]

theorem retryLoop_rate {α : Type} (op : Nat → FetchOutcome α) (mr : Nat)
    (w : ℚ) (a fuel : Nat) (h : op a = .rateLimited) (ha : a < mr - 1) :
    retryLoop op mr w a (fuel + 1) =
      ⟨(retryLoop op mr w (a + 1) fuel).result,
        w * 2 ^ a :: (retryLoop op mr w (a + 1) fuel).sleeps,
        (retryLoop op mr w (a + 1) fuel).calls + 1⟩ := by
  simp [retryLoop, h, ha]

theorem retryLoop_rate_last {α : Type} (op : Nat → FetchOutcome α) (mr : Nat)
    (w : ℚ) (a fuel : Nat) (h : op a = .rateLimited) (ha : ¬ a < mr - 1) :
    retryLoop op mr w a (fuel + 1) = ⟨none, [], 1⟩ := by
  simp [retryLoop, h, ha]

/-! ## Claim theorems -/

/-- C1: with the default parameters `max_retries = 3`, `initial_wait = 1.0`,
a wrapped operation that raises the rate-limit exception on its first two
invocations and succeeds on the third makes `fetch_with_retry` return the
third invocation's value after exactly two sleeps of 1.0s and 2.0s and three
invocations; and an operation that raises the rate-limit exception on every
invocation makes it return `None` instead of propagating the exception. -/
theorem c1_fetch_with_retry_rate_limit {α : Type}
    (op op2 : Nat → FetchOutcome α) (v : α)
    (h0 : op 0 = .rateLimited) (h1 : op 1 = .rateLimited) (h2 : op 2 = .ok v)
    (hall : ∀ k, k < 3 → op2 k = .rateLimited) :
    fetch_with_retry op = ⟨some v, [1, 2], 3⟩ ∧
      fetch_with_retry op2 = ⟨none, [1, 2], 3⟩ := by
  constructor
  · show retryLoop op 3 1 0 3 = _
    rw [show (3 : Nat) = 2 + 1 from rfl, retryLoop_rate op 3 1 0 2 h0 (by norm_num),
      retryLoop_rate op 3 1 1 1 h1 (by norm_num), retryLoop_ok op 3 1 2 0 v h2]
    norm_num
  · show retryLoop op2 3 1 0 3 = _
    rw [show (3 : Nat) = 2 + 1 from rfl,
      retryLoop_rate op2 3 1 0 2 (hall 0 (by norm_num)) (by norm_num),
      retryLoop_rate op2 3 1 1 1 (hall 1 (by norm_num)) (by norm_num),
      retryLoop_rate_last op2 3 1 2 0 (hall 2 (by norm_num)) (by norm_num)]
    norm_num

theorem c1_fetch_with_retry_rate_limit_witness :
    fetch_with_retry (fun k => if k < 2 then .rateLimited else .ok 42) =
        ⟨some 42, [1, 2], 3⟩ ∧
      fetch_with_retry (fun _ => (FetchOutcome.rateLimited : FetchOutcome Nat)) =
        ⟨none, [1, 2], 3⟩ :=
  c1_fetch_with_retry_rate_limit
    (fun k => if k < 2 then .rateLimited else .ok 42)
    (fun _ => .rateLimited) 42 (by decide) (by decide) (by decide)
    (fun k _ => rfl)

/-- C2: an operation whose first invocation raises any non-rate-limit
exception makes `fetch_with_retry` return `None` after exactly one
invocation, with no sleep, both under the default parameters and under any
positive `max_retries` and any `initial_wait`. -/
theorem c2_fetch_with_retry_other_exception {α : Type}
    (op : Nat → FetchOutcome α) (h : op 0 = .failure) :
    fetch_with_retry op = ⟨none, [], 1⟩ ∧
      ∀ (max_retries : Nat) (initial_wait : ℚ), 1 ≤ max_retries →
        fetch_with_retry op max_retries initial_wait = ⟨none, [], 1⟩ := by
  refine ⟨?_, fun mr w hmr => ?_⟩
  · exact retryLoop_failure op 3 1 0 2 h
  · show retryLoop op mr w 0 mr = _
    obtain ⟨fuel, rfl⟩ : ∃ fuel, mr = fuel + 1 :=
      ⟨mr - 1, (Nat.succ_pred_eq_of_pos hmr).symm⟩
    exact retryLoop_failure op (fuel + 1) w 0 fuel h

theorem c2_fetch_with_retry_other_exception_witness :
    fetch_with_retry (fun _ => (FetchOutcome.failure : FetchOutcome Nat)) =
        ⟨none, [], 1⟩ ∧
      fetch_with_retry (fun _ => (FetchOutcome.failure : FetchOutcome Nat))
        5 (3 / 2) = ⟨none, [], 1⟩ :=
  ⟨(c2_fetch_with_retry_other_exception (fun _ => .failure) rfl).1,
    (c2_fetch_with_retry_other_exception (fun _ => .failure) rfl).2 5 (3 / 2)
      (by norm_num)⟩

theorem tryFilenames_cons_ok (http : String → HttpOutcome)
    (owner repo branch readme_name : String) (rest : List String) (c : String)
    (h : http (rawUrl owner repo branch readme_name) = .ok c) :
    tryFilenames http owner repo branch (readme_name :: rest) = (some c, 1) := by
  simp [tryFilenames, h]

theorem tryFilenames_cons_fail (http : String → HttpOutcome)
    (owner repo branch readme_name : String) (rest : List String)
    (h : (http (rawUrl owner repo branch readme_name)).isOk = false) :
    tryFilenames http owner repo branch (readme_name :: rest) =
      ((tryFilenames http owner repo branch rest).1,
        (tryFilenames http owner repo branch rest).2 + 1) := by
  cases hh : http (rawUrl owner repo branch readme_name) <;>
    simp [tryFilenames, hh, HttpOutcome.isOk] at h ⊢

theorem tryFilenames_all_fail (http : String → HttpOutcome)
    (owner repo branch : String) (names : List String)
    (h : ∀ readme_name ∈ names,
        (http (rawUrl owner repo branch readme_name)).isOk = false) :
    tryFilenames http owner repo branch names = (none, names.length) := by
  induction names with
  | nil => rfl
  | cons n rest ih =>
    rw [tryFilenames_cons_fail http owner repo branch n rest
      (h n (List.mem_cons_self n rest))]
    rw [ih (fun x hx => h x (List.mem_cons_of_mem n hx))]
    simp

/-- C3: `fetch_raw_readme` on branch `main`: (a) a URL the owner/repo pattern
does not match returns `None` with zero HTTP attempts; (b) if every candidate
filename on `main` misses (404 or any other error alike) and the first
candidate filename `README.md` succeeds on `master`, the downloaded content is
returned after exactly five HTTP attempts; (c) if both branches miss on every
candidate filename, `None` is returned (after all eight attempts). -/
theorem c3_fetch_raw_readme (http : String → HttpOutcome)
    (bad_url url : String) (owner repo c : String)
    (hbad : matchRepoUrl bad_url = none)
    (hurl : matchRepoUrl url = some (owner, repo))
    (hmain : ∀ readme_name ∈ readme_filenames,
      (http (rawUrl owner repo "main" readme_name)).isOk = false) :
    fetch_raw_readme http bad_url = (none, 0) ∧
      (http (rawUrl owner repo "master" "README.md") = .ok c →
        fetch_raw_readme http url = (some c, 5)) ∧
      ((∀ readme_name ∈ readme_filenames,
          (http (rawUrl owner repo "master" readme_name)).isOk = false) →
        fetch_raw_readme http url = (none, 8)) := by
  refine ⟨?_, fun hok => ?_, fun hmaster => ?_⟩
  · simp [fetch_raw_readme, hbad]
  · simp only [fetch_raw_readme, hurl]
    rw [tryFilenames_all_fail http owner repo "main" readme_filenames hmain]
    rw [show readme_filenames =
      "README.md" :: ["README.markdown", "README.rst", "README"] from rfl]
    rw [tryFilenames_cons_ok http owner repo "master" "README.md"
      ["README.markdown", "README.rst", "README"] c hok]
    simp [readme_filenames]
  · simp only [fetch_raw_readme, hurl]
    rw [tryFilenames_all_fail http owner repo "main" readme_filenames hmain]
    rw [tryFilenames_all_fail http owner repo "master" readme_filenames hmaster]
    simp [readme_filenames]

theorem c3_fetch_raw_readme_witness :
    fetch_raw_readme
        (fun u => if u = rawUrl "owner" "repo" "master" "README.md"
                  then .ok "Master content" else .notFound)
        "https://invalid.com/repo" = (none, 0) ∧
      fetch_raw_readme
        (fun u => if u = rawUrl "owner" "repo" "master" "README.md"
                  then .ok "Master content" else .notFound)
        "https://github.com/owner/repo" = (some "Master content", 5) := by
  have h := c3_fetch_raw_readme
    (fun u => if u = rawUrl "owner" "repo" "master" "README.md"
              then .ok "Master content" else .notFound)
    "https://invalid.com/repo" "https://github.com/owner/repo"
    "owner" "repo" "Master content" (by decide) (by decide) (by decide)
  exact ⟨h.1, h.2.1 (by decide)⟩

theorem stepLine_header (st : List (String × List Project) × String)
    (line : String) (g : List Char) (h : classifyLine line = .header g) :
    stepLine st line =
      (dictEnsure st.1 (String.mk (pyStripChars g)), String.mk (pyStripChars g)) := by
  simp [stepLine, h]

theorem stepLine_bullet (st : List (String × List Project) × String)
    (line : String) (t u : List Char) (d : Option (List Char))
    (h : classifyLine line = .bullet t u d) :
    stepLine st line =
      (dictAppend st.1 st.2
        { title := String.mk (pyStripChars t)
          url := String.mk (pyStripChars u)
          description := d.map (fun x => String.mk (pyStripChars x))
          category := st.2 },
        st.2) := by
  simp [stepLine, h]

theorem stepLine_plain (st : List (String × List Project) × String)
    (line : String) (h : classifyLine line = .plain) :
    stepLine st line = st := by
  simp [stepLine, h]

theorem foldl_stepLine_plain (ls : List String)
    (h : ∀ l ∈ ls, classifyLine l = .plain)
    (st : List (String × List Project) × String) :
    ls.foldl stepLine st = st := by
  induction ls generalizing st with
  | nil => rfl
  | cons a rest ih =>
    rw [List.foldl_cons, stepLine_plain st a (h a (List.mem_cons_self a rest))]
    exact ih (fun x hx => h x (List.mem_cons_of_mem a hx)) st

theorem takeWhile_append_cons {p : Char → Bool} (l1 : List Char) (x : Char)
    (l2 : List Char) (h : ∀ a ∈ l1, p a = true) (hx : p x = false) :
    (l1 ++ x :: l2).takeWhile p = l1 := by
  induction l1 with
  | nil => simp [List.takeWhile_cons, hx]
  | cons a t ih =>
    simp only [List.cons_append, List.takeWhile_cons,
      h a (List.mem_cons_self a t)]
    rw [ih (fun b hb => h b (List.mem_cons_of_mem a hb))]
    simp

theorem dropWhile_append_cons {p : Char → Bool} (l1 : List Char) (x : Char)
    (l2 : List Char) (h : ∀ a ∈ l1, p a = true) (hx : p x = false) :
    (l1 ++ x :: l2).dropWhile p = x :: l2 := by
  induction l1 with
  | nil => simp [List.dropWhile_cons, hx]
  | cons a t ih =>
    simp only [List.cons_append, List.dropWhile_cons,
      h a (List.mem_cons_self a t), if_true]
    exact ih (fun b hb => h b (List.mem_cons_of_mem a hb))

theorem dropWhile_eq_self_of_head {p : Char → Bool} (cs : List Char)
    (h : ∀ x, cs.head? = some x → p x = false) : cs.dropWhile p = cs := by
  cases cs with
  | nil => rfl
  | cons a t => simp [List.dropWhile_cons, h a rfl]

theorem pyStripChars_eq_self (cs : List Char)
    (h1 : ∀ x, cs.head? = some x → isPySpace x = false)
    (h2 : ∀ x, cs.getLast? = some x → isPySpace x = false) :
    pyStripChars cs = cs := by
  unfold pyStripChars
  rw [dropWhile_eq_self_of_head cs h1]
  rw [dropWhile_eq_self_of_head cs.reverse (fun x hx => h2 x (by
    rwa [List.head?_reverse] at hx))]
  exact List.reverse_reverse cs

theorem mem_dictEnsure (d : List (String × List Project)) (k' k : String)
    (l : List Project) (h : (k, l) ∈ d) : (k, l) ∈ dictEnsure d k' := by
  unfold dictEnsure
  split
  · exact h
  · exact List.mem_append_left _ h

theorem mem_dictAppend (d : List (String × List Project)) (key k : String)
    (v p : Project) (l : List Project) (h : (k, l) ∈ d) (hp : p ∈ l) :
    ∃ l', (k, l') ∈ dictAppend d key v ∧ p ∈ l' := by
  unfold dictAppend
  split
  · by_cases hk : k = key
    · refine ⟨l ++ [v], ?_, List.mem_append_left _ hp⟩
      have := List.mem_map_of_mem
        (fun kv : String × List Project =>
          if kv.1 = key then (kv.1, kv.2 ++ [v]) else kv) h
      simpa [hk] using this
    · refine ⟨l, ?_, hp⟩
      have := List.mem_map_of_mem
        (fun kv : String × List Project =>
          if kv.1 = key then (kv.1, kv.2 ++ [v]) else kv) h
      simpa [hk] using this
  · exact ⟨l, List.mem_append_left _ h, hp⟩

theorem stepLine_mem_inv (st : List (String × List Project) × String)
    (line : String) (k : String) (p : Project)
    (h : ∃ l, (k, l) ∈ st.1 ∧ p ∈ l) :
    ∃ l, (k, l) ∈ (stepLine st line).1 ∧ p ∈ l := by
  obtain ⟨l, hl, hp⟩ := h
  unfold stepLine
  cases hc : classifyLine line with
  | header g => exact ⟨l, mem_dictEnsure st.1 _ k l hl, hp⟩
  | bullet t u d =>
    obtain ⟨l', hl', hp'⟩ := mem_dictAppend st.1 st.2 k _ p l hl hp
    exact ⟨l', hl', hp'⟩
  | plain => exact ⟨l, hl, hp⟩

theorem foldl_stepLine_mem_inv (ls : List String)
    (st : List (String × List Project) × String) (k : String) (p : Project)
    (h : ∃ l, (k, l) ∈ st.1 ∧ p ∈ l) :
    ∃ l, (k, l) ∈ (ls.foldl stepLine st).1 ∧ p ∈ l := by
  induction ls generalizing st with
  | nil => exact h
  | cons a rest ih =>
    rw [List.foldl_cons]
    exact ih (stepLine st a) (stepLine_mem_inv st a k p h)

theorem total_ne_zero_of_mem (d : List (String × List Project)) (k : String)
    (l : List Project) (p : Project) (h : (k, l) ∈ d) (hp : p ∈ l) :
    (d.map (fun kv => kv.2.length)).sum ≠ 0 := by
  induction d with
  | nil => cases h
  | cons a t ih =>
    rcases List.mem_cons.mp h with h1 | h2
    · subst h1
      have : l.length ≠ 0 := List.ne_nil_of_mem hp ∘ List.length_eq_zero.mp
      simp only [List.map_cons, List.sum_cons]
      omega
    · have := ih h2
      simp only [List.map_cons, List.sum_cons]
      intro hz
      exact this (by omega)

theorem total_dictEnsure (d : List (String × List Project)) (k : String) :
    ((dictEnsure d k).map (fun kv => kv.2.length)).sum =
      (d.map (fun kv => kv.2.length)).sum := by
  unfold dictEnsure
  split
  · rfl
  · simp

theorem total_stepLine_nonbullet (st : List (String × List Project) × String)
    (line : String) (h : (classifyLine line).isBullet = false) :
    ((stepLine st line).1.map (fun kv => kv.2.length)).sum =
      (st.1.map (fun kv => kv.2.length)).sum := by
  unfold stepLine
  cases hc : classifyLine line with
  | header g => exact total_dictEnsure st.1 _
  | bullet t u d => rw [hc] at h; exact absurd h (by simp [LineClass.isBullet])
  | plain => rfl

theorem total_foldl_nonbullet (ls : List String)
    (h : ∀ l ∈ ls, (classifyLine l).isBullet = false)
    (st : List (String × List Project) × String) :
    ((ls.foldl stepLine st).1.map (fun kv => kv.2.length)).sum =
      (st.1.map (fun kv => kv.2.length)).sum := by
  induction ls generalizing st with
  | nil => rfl
  | cons a rest ih =>
    rw [List.foldl_cons,
      ih (fun x hx => h x (List.mem_cons_of_mem a hx)) (stepLine st a),
      total_stepLine_nonbullet st a (h a (List.mem_cons_self a rest))]

/-- C7: a document whose matching lines are, in order, a category header, two
bullets, a second category header (with a different stripped name), and one
more bullet — with arbitrary non-matching lines interleaved — parses into a
mapping whose entries are exactly the two category names in first-appearance
order, the first with the first two projects in source order, the second with
the third; and any document in which no line parses as a project entry makes
`parse_main_readme` raise `ValueError` instead of returning a mapping. -/
theorem c7_parse_main_readme
    (p0 p1 p2 p3 p4 p5 : List String) (l1 l2 l3 l4 l5 : String)
    (c1 c2 t1 u1 t2 u2 t3 u3 : List Char) (d1 d2 d3 : Option (List Char))
    (hp0 : ∀ l ∈ p0, classifyLine l = .plain)
    (hp1 : ∀ l ∈ p1, classifyLine l = .plain)
    (hp2 : ∀ l ∈ p2, classifyLine l = .plain)
    (hp3 : ∀ l ∈ p3, classifyLine l = .plain)
    (hp4 : ∀ l ∈ p4, classifyLine l = .plain)
    (hp5 : ∀ l ∈ p5, classifyLine l = .plain)
    (h1 : classifyLine l1 = .header c1)
    (h2 : classifyLine l2 = .bullet t1 u1 d1)
    (h3 : classifyLine l3 = .bullet t2 u2 d2)
    (h4 : classifyLine l4 = .header c2)
    (h5 : classifyLine l5 = .bullet t3 u3 d3)
    (hne : String.mk (pyStripChars c1) ≠ String.mk (pyStripChars c2)) :
    parse_main_readme
        (p0 ++ l1 :: (p1 ++ l2 :: (p2 ++ l3 :: (p3 ++ l4 :: (p4 ++ l5 :: p5))))) =
      .ok [(String.mk (pyStripChars c1),
             [{ title := String.mk (pyStripChars t1)
                url := String.mk (pyStripChars u1)
                description := d1.map (fun x => String.mk (pyStripChars x))
                category := String.mk (pyStripChars c1) },
              { title := String.mk (pyStripChars t2)
                url := String.mk (pyStripChars u2)
                description := d2.map (fun x => String.mk (pyStripChars x))
                category := String.mk (pyStripChars c1) }]),
           (String.mk (pyStripChars c2),
             [{ title := String.mk (pyStripChars t3)
                url := String.mk (pyStripChars u3)
                description := d3.map (fun x => String.mk (pyStripChars x))
                category := String.mk (pyStripChars c2) }])] ∧
      ∀ ls : List String, (∀ l ∈ ls, (classifyLine l).isBullet = false) →
        parse_main_readme ls = .error "No valid project entries found in README" := by
  constructor
  · unfold parse_main_readme
    rw [List.foldl_append, foldl_stepLine_plain p0 hp0, List.foldl_cons,
      stepLine_header _ l1 c1 h1]
    rw [List.foldl_append, foldl_stepLine_plain p1 hp1, List.foldl_cons,
      stepLine_bullet _ l2 t1 u1 d1 h2]
    rw [List.foldl_append, foldl_stepLine_plain p2 hp2, List.foldl_cons,
      stepLine_bullet _ l3 t2 u2 d2 h3]
    rw [List.foldl_append, foldl_stepLine_plain p3 hp3, List.foldl_cons,
      stepLine_header _ l4 c2 h4]
    rw [List.foldl_append, foldl_stepLine_plain p4 hp4, List.foldl_cons,
      stepLine_bullet _ l5 t3 u3 d3 h5]
    rw [foldl_stepLine_plain p5 hp5]
    simp [dictEnsure, dictAppend, hne]
  · intro ls hls
    simp only [parse_main_readme]
    rw [total_foldl_nonbullet ls hls ([], "Uncategorized")]
    simp

theorem c7_parse_main_readme_witness :
    parse_main_readme
        ["# Awesome", "## AI Tools", "", "- [A](ua) - da", "- [B](ub)",
         "## Chatbots", "- [C](uc) - dc"] =
      .ok [("AI Tools",
             [{ title := "A", url := "ua", description := some "da",
                category := "AI Tools" },
              { title := "B", url := "ub", description := none,
                category := "AI Tools" }]),
           ("Chatbots",
             [{ title := "C", url := "uc", description := some "dc",
                category := "Chatbots" }])] ∧
      parse_main_readme ["# Empty", "just text"] =
        .error "No valid project entries found in README" := by
  have h := c7_parse_main_readme
    ["# Awesome"] [""] [] [] [] [] "## AI Tools" "- [A](ua) - da" "- [B](ub)"
    "## Chatbots" "- [C](uc) - dc"
    "AI Tools".toList "Chatbots".toList
    "A".toList "ua".toList "B".toList "ub".toList "C".toList "uc".toList
    (some "da".toList) none (some "dc".toList)
    (by decide) (by decide) (by decide) (by decide) (by decide) (by decide)
    (by decide) (by decide) (by decide) (by decide) (by decide) (by decide)
  exact ⟨h.1, h.2 ["# Empty", "just text"] (by decide)⟩

theorem bulletChars_eq_concat (t u : List Char) :
    bulletChars t u = ('-' :: ' ' :: '[' :: (t ++ ']' :: '(' :: u)) ++ [')'] := by
  simp [bulletChars]

theorem matchProject_bulletChars (t u : List Char) (ht : t ≠ [])
    (htc : ∀ c ∈ t, c ≠ ']') (hu : u ≠ []) (huc : ∀ c ∈ u, c ≠ ')') :
    matchProject (bulletChars t u) = some (t, u, none) := by
  have cspace : isPySpace ' ' = true := by decide
  have cbracket : isPySpace '[' = false := by decide
  have hsp : (' ' :: '[' :: (t ++ ']' :: '(' :: (u ++ [')']))).takeWhile isPySpace
      = [' '] := by
    simp [List.takeWhile_cons, cspace, cbracket]
  have hdp : (' ' :: '[' :: (t ++ ']' :: '(' :: (u ++ [')']))).dropWhile isPySpace
      = '[' :: (t ++ ']' :: '(' :: (u ++ [')'])) := by
    simp [List.dropWhile_cons, cspace, cbracket]
  have htitle : (t ++ ']' :: '(' :: (u ++ [')'])).takeWhile
      (fun c => decide (c ≠ ']')) = t :=
    takeWhile_append_cons (p := fun c => decide (c ≠ ']')) t ']'
      ('(' :: (u ++ [')'])) (fun a ha => by simpa using htc a ha) (by simp)
  have htitle2 : (t ++ ']' :: '(' :: (u ++ [')'])).dropWhile
      (fun c => decide (c ≠ ']')) = ']' :: '(' :: (u ++ [')']) :=
    dropWhile_append_cons (p := fun c => decide (c ≠ ']')) t ']'
      ('(' :: (u ++ [')'])) (fun a ha => by simpa using htc a ha) (by simp)
  have hurl : (u ++ [')']).takeWhile (fun c => decide (c ≠ ')')) = u := by
    have h := takeWhile_append_cons (p := fun c => decide (c ≠ ')')) u ')'
      ([] : List Char) (fun a ha => by simpa using huc a ha) (by simp)
    simpa using h
  have hurl2 : (u ++ [')']).dropWhile (fun c => decide (c ≠ ')')) = [')'] := by
    have h := dropWhile_append_cons (p := fun c => decide (c ≠ ')')) u ')'
      ([] : List Char) (fun a ha => by simpa using huc a ha) (by simp)
    simpa using h
  unfold matchProject bulletChars
  simp only [hsp, hdp, htitle, htitle2, hurl, hurl2, ht, hu]
  simp [List.dropWhile]

theorem classifyLine_bulletChars (t u : List Char) (ht : t ≠ [])
    (htc : ∀ c ∈ t, c ≠ ']') (hu : u ≠ []) (huc : ∀ c ∈ u, c ≠ ')') :
    classifyLine (String.mk (bulletChars t u)) = .bullet t u none := by
  have hstrip : pyStripChars (bulletChars t u) = bulletChars t u := by
    apply pyStripChars_eq_self
    · intro x hx
      rw [show (bulletChars t u).head? = some '-' from rfl] at hx
      cases hx
      rfl
    · intro x hx
      rw [bulletChars_eq_concat, List.getLast?_concat] at hx
      cases hx
      rfl
  show (match matchCategory (pyStripChars (String.mk (bulletChars t u)).toList) with
    | some g => LineClass.header g
    | none => _) = _
  rw [show (String.mk (bulletChars t u)).toList = bulletChars t u from rfl, hstrip]
  rw [show matchCategory (bulletChars t u) = none from rfl]
  rw [matchProject_bulletChars t u ht htc hu huc]

/-- C8: a catalog bullet line `- [Title](URL)` with no trailing description
part parses into a `Project` whose description is `None` and whose title and
url are the bracketed and parenthesized parts (here with title and url
already stripped, since the parser strips each captured group). -/
theorem c8_bullet_without_description (t u : List Char) (ht : t ≠ [])
    (htc : ∀ c ∈ t, c ≠ ']') (hts : pyStripChars t = t)
    (hu : u ≠ []) (huc : ∀ c ∈ u, c ≠ ')') (hus : pyStripChars u = u) :
    parse_main_readme [String.mk (bulletChars t u)] =
      .ok [("Uncategorized",
        [{ title := String.mk t, url := String.mk u, description := none,
           category := "Uncategorized" }])] := by
  simp only [parse_main_readme, List.foldl_cons, List.foldl_nil]
  rw [stepLine_bullet _ _ t u none (classifyLine_bulletChars t u ht htc hu huc)]
  simp [dictAppend, hts, hus]

theorem c8_bullet_without_description_witness :
    parse_main_readme [String.mk (bulletChars "Title".toList "http://u".toList)] =
      .ok [("Uncategorized",
        [{ title := "Title", url := "http://u", description := none,
           category := "Uncategorized" }])] :=
  c8_bullet_without_description "Title".toList "http://u".toList
    (by decide) (by decide) (by decide) (by decide) (by decide) (by decide)

/-- C10: a bullet line appearing before the first category header is not
dropped: the parse succeeds and the returned mapping has an entry for the
synthetic category `"Uncategorized"` whose list contains the bullet's
project, whatever lines follow. -/
theorem c10_uncategorized (pre : List String) (b : String) (t u : List Char)
    (d : Option (List Char)) (rest : List String)
    (hpre : ∀ l ∈ pre, classifyLine l = .plain)
    (hb : classifyLine b = .bullet t u d) :
    ∃ cats, parse_main_readme (pre ++ b :: rest) = .ok cats ∧
      ∃ l, ("Uncategorized", l) ∈ cats ∧
        ({ title := String.mk (pyStripChars t), url := String.mk (pyStripChars u),
           description := d.map (fun x => String.mk (pyStripChars x)),
           category := "Uncategorized" } : Project) ∈ l := by
  have hstep : stepLine ([], "Uncategorized") b =
      ([("Uncategorized",
         [{ title := String.mk (pyStripChars t), url := String.mk (pyStripChars u),
            description := d.map (fun x => String.mk (pyStripChars x)),
            category := "Uncategorized" }])], "Uncategorized") := by
    rw [stepLine_bullet _ b t u d hb]
    simp [dictAppend]
  have hmem : ∃ l, ("Uncategorized", l) ∈
      ((pre ++ b :: rest).foldl stepLine ([], "Uncategorized")).1 ∧
      ({ title := String.mk (pyStripChars t), url := String.mk (pyStripChars u),
         description := d.map (fun x => String.mk (pyStripChars x)),
         category := "Uncategorized" } : Project) ∈ l := by
    rw [List.foldl_append, foldl_stepLine_plain pre hpre, List.foldl_cons, hstep]
    exact foldl_stepLine_mem_inv rest _ _ _ ⟨_, List.mem_singleton_self _,
      List.mem_singleton_self _⟩
  obtain ⟨l, hl, hp⟩ := hmem
  have hsum := total_ne_zero_of_mem _ _ l _ hl hp
  refine ⟨_, ?_, l, hl, hp⟩
  simp only [parse_main_readme]
  rw [if_neg hsum]

theorem c10_uncategorized_witness :
    ∃ cats, parse_main_readme
        ["intro text", "- [Early](ue) - de", "## Cat", "- [C](uc)"] = .ok cats ∧
      ∃ l, ("Uncategorized", l) ∈ cats ∧
        ({ title := "Early", url := "ue", description := some "de",
           category := "Uncategorized" } : Project) ∈ l := by
  have h := c10_uncategorized ["intro text"] "- [Early](ue) - de"
    "Early".toList "ue".toList (some "de".toList) ["## Cat", "- [C](uc)"]
    (by decide) (by decide)
  simpa using h

theorem functionsOf_eq_filter_aux (mn : List String) (body : List PyStmt) :
    body.filterMap (fun s =>
      match s with
      | .funcDef n ln args d =>
        if n ∈ mn then none else some ⟨n, ln, args, d⟩
      | _ => none) =
      (body.filterMap toFuncInfo).filter (fun f => ¬ f.name ∈ mn) := by
  induction body with
  | nil => rfl
  | cons s rest ih =>
    cases s with
    | funcDef n ln args d =>
      by_cases hn : n ∈ mn <;>
        simp [List.filterMap_cons, toFuncInfo, hn, List.filter_cons, ih]
    | classDef n ln d cbody =>
      simp [List.filterMap_cons, toFuncInfo, ih]
    | other =>
      simp [List.filterMap_cons, toFuncInfo, ih]

theorem functionsOf_eq_filter (body : List PyStmt) :
    functionsOf body =
      (topLevelFuncDefs body).filter (fun f => ¬ f.name ∈ methodNamesOf body) :=
  functionsOf_eq_filter_aux (methodNamesOf body) body

/-- C4: `extract_python_metadata` never propagates an exception: it returns
`None` exactly when the file is missing, unreadable, or syntactically
invalid, and returns a metadata record for every file that parses; an empty
(hence syntactically valid) file yields a record with zero functions and
zero classes. -/
theorem c4_extract_python_metadata_total (name fp : String) :
    (∀ st : PyFileState,
        (∃ md, extract_python_metadata name fp st = some md) ↔
          ∃ m, st = .parsed m) ∧
      extract_python_metadata name fp .missing = none ∧
      extract_python_metadata name fp .readError = none ∧
      extract_python_metadata name fp .syntaxError = none ∧
      extract_python_metadata name fp .otherError = none ∧
      (extract_python_metadata name fp (.parsed ⟨none, []⟩)).map
          (fun md => (md.functions, md.classes)) = some ([], []) := by
  refine ⟨fun st => ?_, rfl, rfl, rfl, rfl, rfl⟩
  cases st <;> simp [extract_python_metadata]

theorem descAfterClasses_some (d : String) (classes : List ClassInfo) :
    descAfterClasses (some d) classes = some d := by
  induction classes with
  | nil => rfl
  | cons c rest ih => simpa [descAfterClasses] using ih

theorem descAfterClasses_none (classes : List ClassInfo) :
    descAfterClasses none classes =
      classes.findSome? (fun c => descTry c.docstring) := by
  induction classes with
  | nil => rfl
  | cons c rest ih =>
    rw [List.findSome?_cons]
    cases h : descTry c.docstring with
    | some d =>
      show descAfterClasses (descTry c.docstring) rest = _
      rw [h, descAfterClasses_some]
    | none =>
      show descAfterClasses (descTry c.docstring) rest = _
      rw [h, ih]

theorem descAfterFuncs_some (d : String) (funcs : List FuncInfo) :
    descAfterFuncs (some d) funcs = some d := by
  induction funcs with
  | nil => rfl
  | cons f rest ih => simpa [descAfterFuncs] using ih

theorem descAfterFuncs_none (funcs : List FuncInfo) :
    descAfterFuncs none funcs =
      funcs.findSome?
        (fun f => if f.name = "main" then descTry f.docstring else none) := by
  induction funcs with
  | nil => rfl
  | cons f rest ih =>
    rw [List.findSome?_cons]
    cases h : (if f.name = "main" then descTry f.docstring else none) with
    | some d =>
      show descAfterFuncs (if f.name = "main" then descTry f.docstring else none)
          rest = _
      rw [h, descAfterFuncs_some]
    | none =>
      show descAfterFuncs (if f.name = "main" then descTry f.docstring else none)
          rest = _
      rw [h, ih]

/-- C5 counterexample: a module with no module docstring, a single class with
no docstring but with a method named `main`, and a top-level function `main`
whose docstring is `"Hi"`.  The claim's fallback chain says the description is
taken from the top-level `main`'s docstring (no module or class docstring is
present), but the code drops the top-level `main` from the functions pass
because its name collides with a method name, so the derived description is
`None`. -/
theorem c5_description_counterexample :
    (extractFromModule "mod" "mod.py"
        ⟨none, [.classDef "A" 1 none [.funcDef "main" 2 ["self"] none],
                .funcDef "main" 5 [] (some "Hi")]⟩).description = none ∧
      claimDescriptionC5
        ⟨none, [.classDef "A" 1 none [.funcDef "main" 2 ["self"] none],
                .funcDef "main" 5 [] (some "Hi")]⟩ = some "Hi" := by
  constructor <;> rfl

/-- C5 amended: the derived description is the first non-blank line (truncated
to 200 characters plus an ellipsis when longer) of the first of these
docstrings that yields one: the module docstring if non-empty; else, scanning
classes in order, each non-empty class docstring; else, scanning the retained
top-level functions in order (those whose name does not collide with a method
name), the non-empty docstring of a function literally named `main`; if none
yields a non-blank line, the description is `None`. -/
theorem c5_description_amended (name fp : String) (m : PyModule) :
    (extractFromModule name fp m).description =
      (descTry m.docstring <|>
        ((classInfosOf m.body).findSome? (fun c => descTry c.docstring) <|>
          (functionsOf m.body).findSome?
            (fun f => if f.name = "main" then descTry f.docstring else none))) := by
  show descAfterFuncs (descAfterClasses (descTry m.docstring) (classInfosOf m.body))
      (functionsOf m.body) = _
  cases h0 : descTry m.docstring with
  | some d => rw [descAfterClasses_some, descAfterFuncs_some]; rfl
  | none =>
    rw [descAfterClasses_none]
    cases h1 : (classInfosOf m.body).findSome? (fun c => descTry c.docstring) with
    | some d => rw [descAfterFuncs_some]; rfl
    | none => rw [descAfterFuncs_none]; rfl

/-- C9 counterexample: a module with a class whose method is named `foo` and
a top-level function also named `foo`.  The claim says the functions list
contains exactly the module's top-level function definitions, but the code
omits the top-level `foo` because its name coincides with a method name. -/
theorem c9_functions_counterexample :
    (extractFromModule "mod" "mod.py"
        ⟨none, [.classDef "A" 1 none [.funcDef "foo" 2 ["self"] none],
                .funcDef "foo" 5 [] (some "top")]⟩).functions = [] ∧
      topLevelFuncDefs
          [.classDef "A" 1 none [.funcDef "foo" 2 ["self"] none],
           .funcDef "foo" 5 [] (some "top")] =
        [{ name := "foo", lineno := 5, args := [], docstring := some "top" }] ∧
      (extractFromModule "mod" "mod.py"
          ⟨none, [.classDef "A" 1 none [.funcDef "foo" 2 ["self"] none],
                  .funcDef "foo" 5 [] (some "top")]⟩).functions ≠
        topLevelFuncDefs
          [.classDef "A" 1 none [.funcDef "foo" 2 ["self"] none],
           .funcDef "foo" 5 [] (some "top")] := by
  refine ⟨rfl, rfl, ?_⟩
  decide

/-- C9 amended: the functions list is exactly the module's top-level function
definitions whose names do not coincide with any class method's name; in
particular no entry of the list bears a method's name, and a top-level
function is omitted only because of such a name collision, never merely for
being a top-level definition; the classes list carries each class's name,
docstring and methods. -/
theorem c9_functions_amended (name fp : String) (m : PyModule) :
    (extractFromModule name fp m).functions =
        (topLevelFuncDefs m.body).filter
          (fun f => ¬ f.name ∈ methodNamesOf m.body) ∧
      (∀ f ∈ (extractFromModule name fp m).functions,
        ¬ f.name ∈ methodNamesOf m.body) ∧
      (∀ f ∈ topLevelFuncDefs m.body, ¬ f.name ∈ methodNamesOf m.body →
        f ∈ (extractFromModule name fp m).functions) ∧
      (extractFromModule name fp m).classes = classInfosOf m.body := by
  have hfns : (extractFromModule name fp m).functions = functionsOf m.body := rfl
  refine ⟨hfns.trans (functionsOf_eq_filter m.body), ?_, ?_, rfl⟩
  · intro f hf
    rw [hfns, functionsOf_eq_filter] at hf
    simpa using (List.mem_filter.mp hf).2
  · intro f hf hname
    rw [hfns, functionsOf_eq_filter]
    exact List.mem_filter.mpr ⟨hf, by simpa using hname⟩

theorem c9_functions_amended_witness :
    (extractFromModule "mod" "mod.py"
        ⟨none, [.classDef "A" 1 none [.funcDef "foo" 2 ["self"] none],
                .funcDef "g" 5 [] none]⟩).functions =
        (topLevelFuncDefs
            [.classDef "A" 1 none [.funcDef "foo" 2 ["self"] none],
             .funcDef "g" 5 [] none]).filter
          (fun f => ¬ f.name ∈ methodNamesOf
            [.classDef "A" 1 none [.funcDef "foo" 2 ["self"] none],
             .funcDef "g" 5 [] none]) ∧
      ({ name := "g", lineno := 5, args := [], docstring := none } : FuncInfo) ∈
        (extractFromModule "mod" "mod.py"
          ⟨none, [.classDef "A" 1 none [.funcDef "foo" 2 ["self"] none],
                  .funcDef "g" 5 [] none]⟩).functions :=
  ⟨(c9_functions_amended "mod" "mod.py"
      ⟨none, [.classDef "A" 1 none [.funcDef "foo" 2 ["self"] none],
              .funcDef "g" 5 [] none]⟩).1,
    (c9_functions_amended "mod" "mod.py"
        ⟨none, [.classDef "A" 1 none [.funcDef "foo" 2 ["self"] none],
                .funcDef "g" 5 [] none]⟩).2.2.1
      { name := "g", lineno := 5, args := [], docstring := none }
      (by decide) (by decide)⟩

/-- C6 counterexample: a run whose input document exists and parses into one
category with one project, where that project's output generation raises (so
`process_project` returns `False`).  None of the claim's three exit-1
conditions holds — the claim says such a run exits 0 — but `main` returns
`1` because `failed_count` is 1. -/
theorem c6_exit_counterexample :
    mainExit true ["## C", "- [T](u) - d"]
        (fun _ => ⟨none, none, none, true⟩) = 1 ∧
      claimExitC6 true ["## C", "- [T](u) - d"] = 0 := by
  constructor <;> rfl

/-- C6 amended: on the modelled runs, the exit code is 0 exactly when the
required input document exists, the catalog parses with at least one entry,
and every project's `process_project` call succeeds; a project that merely
fails all fetch tiers but whose output write succeeds still counts as a
success (its page falls back to catalog-only content), so such partial
successes exit 0, while exit 1 additionally occurs whenever some project's
processing fails. -/
theorem c6_exit_amended (readmeExists : Bool) (doc : List String)
    (env : Project → ProcEnv) :
    (mainExit readmeExists doc env = 0 ↔
        readmeExists = true ∧
          ∃ cats, parse_main_readme doc = .ok cats ∧
            ∀ p ∈ cats.flatMap (fun kv => kv.2),
              (process_project (env p)).1 = true) ∧
      process_project ⟨none, none, none, false⟩ = (true, .catalogOnly) := by
  refine ⟨?_, rfl⟩
  unfold mainExit
  cases readmeExists with
  | false => simp
  | true =>
    simp only [if_neg (by simp : ¬ (true = false))]
    cases hp : parse_main_readme doc with
    | error e => simp [hp]
    | ok cats =>
      have hiff : ((cats.flatMap (fun kv => kv.2)).filter
          (fun p => ¬ (process_project (env p)).1)).length = 0 ↔
          ∀ p ∈ cats.flatMap (fun kv => kv.2),
            (process_project (env p)).1 = true := by
        rw [List.length_eq_zero, List.filter_eq_nil_iff]
        constructor
        · intro h p hp2
          simpa using h p hp2
        · intro h p hp2
          simp [h p hp2]
      simp only [hp, Except.ok.injEq]
      constructor
      · intro h
        refine ⟨by trivial, cats, rfl, hiff.mp ?_⟩
        by_cases hz : ((cats.flatMap (fun kv => kv.2)).filter
            (fun p => ¬ (process_project (env p)).1)).length = 0
        · exact hz
        · rw [if_neg hz] at h
          exact absurd h one_ne_zero
      · rintro ⟨-, cats', rfl, hall⟩
        rw [if_pos (hiff.mpr hall)]


theorem c6_exit_amended_witness :
    mainExit true ["## C", "- [T](u) - d"]
      (fun _ => ⟨none, none, none, false⟩) = 0 :=
  (c6_exit_amended true ["## C", "- [T](u) - d"]
      (fun _ => ⟨none, none, none, false⟩)).1.mpr
    ⟨rfl, [("C", [{ title := "T", url := "u", description := some "d",
                    category := "C" }])], by rfl, fun p _ => rfl⟩

end FetchApps
